import Mathlib

/-!
Verification development for the MediGuard attendance-tracking repository.

The repository contains two snapshots ("variants") of the application:

* Variant A (`src/services/storage.ts`, `src/components/StaffDashboard.tsx`,
  `src/App.tsx` with `src/unnamed/part_001` types): username-based login via
  `validateAndLoginUser`, device binding, check-in/check-out with device
  stamps and anomaly detection.
* Variant B (`src/unnamed/part_003`, `src/unnamed/part_004`, `src/types.ts`):
  pin-based staff accounts, Supabase synchronisation (`syncFromSupabase`),
  config transfer (`generateHospitalConfigLink` / `importHospitalConfig`) and
  manual attendance batch transfer (`importAttendanceData`).

Numbers: geographic quantities (`radius`, distances, coordinates) are modelled
as `ℚ`; timestamps are modelled as `ℤ` milliseconds (the code stores ISO
strings and compares via `Date.getTime()`, which yields epoch milliseconds).
The haversine `calculateDistance` is floating-point transcendental code; every
theorem that involves it quantifies over an arbitrary distance function
`calcDist : Coords → Coords → ℚ`, so the results hold for the actual
haversine in particular.
-/

/-- Roles from `types.ts` (variant B adds `MANAGER`; variant A only ever
constructs `ADMIN` and `STAFF` and only ever tests `role === ADMIN`). -/
inductive UserRole where
  | ADMIN
  | MANAGER
  | STAFF
deriving DecidableEq, Repr

/-- `Coords` from `types.ts`: a WGS84 point with optional accuracy. -/
structure Coords where
  latitude : ℚ
  longitude : ℚ
  accuracy : Option ℚ
deriving DecidableEq, Repr

/-- `Hospital` from `types.ts`. Variant A's type omits `username`/`password`
and the admin dashboard's `logViewPassword`; they are carried here as plain
data and never read by the variant-A code paths modelled below. -/
structure Hospital where
  id : String
  name : String
  registrationNumber : String
  username : String
  password : String
  logViewPassword : Option String
  coords : Coords
  radius : ℚ
deriving DecidableEq, Repr

/-- The only anomaly kind produced by the code (`StaffDashboard.tsx`). -/
inductive Anomaly where
  | DEVICE_MISMATCH
deriving DecidableEq, Repr

/-- `AttendanceRecord` from `types.ts`, including the device-stamp fields set
by the variant-A dashboard and mapped by the variant-B sync code
(`check_in_device_id`, `check_out_device_id`, `anomaly`). -/
structure AttendanceRecord where
  id : String
  userId : String
  userName : String
  hospitalId : String
  hospitalName : String
  checkInTime : ℤ
  checkOutTime : Option ℤ
  checkInCoords : Coords
  checkOutCoords : Option Coords
  flagged : Bool
  distanceFromCenter : ℚ
  durationMinutes : Option ℤ
  checkInDeviceId : Option String
  checkOutDeviceId : Option String
  anomaly : Option Anomaly
deriving DecidableEq, Repr

/-- Status-message kinds used by `StaffDashboard.tsx` (`setStatusMessage`).
`warning` is non-fatal; `error` is the critical styling. -/
inductive MsgKind where
  | success
  | warning
  | error
deriving DecidableEq, Repr

/-- JavaScript `Math.round`: round half toward positive infinity. -/
def jsRound (q : ℚ) : ℤ :=
  Rat.floor (q + 1 / 2)

/-- Parsed JSON values, used to model payloads before shape validation
(`JSON.parse(atob(...))` in the import functions). -/
inductive JVal where
  | jnull
  | jbool (b : Bool)
  | jnum (q : ℚ)
  | jstr (s : String)
  | jarr (xs : List JVal)
  | jobj (fields : List (String × JVal))
deriving Repr

/-- Structural equality of JSON values, modelling the strict equality that
the import code applies to `id` fields read from parsed JSON. -/
def jeq : JVal → JVal → Bool
  | .jnull, .jnull => true
  | .jbool a, .jbool b => a == b
  | .jnum a, .jnum b => a == b
  | .jstr a, .jstr b => a == b
  | .jarr [], .jarr [] => true
  | .jarr (x :: xs), .jarr (y :: ys) => jeq x y && jeq (.jarr xs) (.jarr ys)
  | .jobj [], .jobj [] => true
  | .jobj ((k, v) :: fs), .jobj ((k2, v2) :: fs2) =>
      k == k2 && jeq v v2 && jeq (.jobj fs) (.jobj fs2)
  | _, _ => false

instance : BEq JVal := ⟨jeq⟩

/-- JavaScript property access `v.field` on a parsed JSON value: `undefined`
(here `none`) unless `v` is an object with the field. -/
def jget (v : JVal) (field : String) : Option JVal :=
  match v with
  | .jobj fs => (fs.find? (fun p => p.1 == field)).map (fun p => p.2)
  | _ => none

/-- JavaScript truthiness of a possibly-absent JSON value. -/
def jTruthy : Option JVal → Bool
  | none => false
  | some .jnull => false
  | some (.jbool b) => b
  | some (.jnum q) => !(q == 0)
  | some (.jstr s) => !(s == "")
  | some (.jarr _) => true
  | some (.jobj _) => true

/-- Test for `Array.isArray` on a parsed JSON value. -/
def JVal.isArr : JVal → Bool
  | .jarr _ => true
  | _ => false

/-- Replace the first element whose key equals `key x` by `x`, else append:
the `findIndex`-then-assign-else-push pattern used by every save/upsert
function in the repository, and by the remote store's `upsert`. -/
def upsertBy {β κ : Type} [BEq κ] (key : β → κ) (x : β) : List β → List β
  | [] => [x]
  | y :: ys => if key y == key x then x :: ys else y :: upsertBy key x ys

namespace A

/-- `User` from the variant-A `types.ts` (`src/unnamed/part_001`), plus the
`profilePicture` field written by the variant-A `StaffDashboard.tsx`. -/
structure User where
  id : String
  name : String
  username : String
  role : UserRole
  hospitalId : Option String
  boundDeviceId : Option String
  profilePicture : Option String
deriving DecidableEq, Repr

/-- Outcome of `validateAndLoginUser` (`src/services/storage.ts`). Each
constructor corresponds to one `return` site: success, the
`User not found` error, the `This device is already registered to ...`
error (carrying the owner's name), and the
`Your account is linked to a different device` error. -/
inductive LoginResult where
  | success (user : User)
  | userNotFound
  | deviceOwnedByOther (ownerName : String)
  | accountBoundElsewhere
deriving DecidableEq, Repr

/-- `getOrCreateDeviceId` (`storage.ts` lines 9-16): return the persisted id,
creating and persisting a fresh one if absent. The persisted value is the
first component of the device-id store state; `fresh` stands for the
`crypto.randomUUID()` result. -/
def getOrCreateDeviceId (store : Option String) (fresh : String) : String × Option String :=
  match store with
  | some id => (id, some id)
  | none => (fresh, some fresh)

/-- `updateUser` (`storage.ts` lines 42-49): replace the first stored user
with the same `id`; no-op when absent (`findIndex` returns `-1`). -/
def updateUser (updated : User) : List User → List User
  | [] => []
  | u :: us => if u.id == updated.id then updated :: us else u :: updateUser updated us

/-- `validateAndLoginUser` (`storage.ts` lines 54-95). State threaded
explicitly: the stored user list and the persisted device id; `fresh` is the
uuid used if a device id must be created. Returns the result together with
the updated users and device-id store. -/
def validateAndLoginUser (users : List User) (deviceStore : Option String)
    (fresh : String) (username : String) : LoginResult × List User × Option String :=
  match users.find? (fun u => u.username == username) with
  | none => (.userNotFound, users, deviceStore)
  | some targetUser =>
    if targetUser.role = UserRole.ADMIN then
      (.success targetUser, users, deviceStore)
    else
      let p := getOrCreateDeviceId deviceStore fresh
      let currentDeviceId := p.1
      match users.find? (fun u => u.boundDeviceId == some currentDeviceId && u.id != targetUser.id) with
      | some deviceOwner => (.deviceOwnedByOther deviceOwner.name, users, p.2)
      | none =>
        match targetUser.boundDeviceId with
        | some b =>
          if b ≠ currentDeviceId then (.accountBoundElsewhere, users, p.2)
          else (.success targetUser, users, p.2)
        | none =>
          let bound := { targetUser with boundDeviceId := some currentDeviceId }
          (.success bound, updateUser bound users, p.2)

/-- `saveAttendanceRecord` (`storage.ts` lines 109-113): append. -/
def saveAttendanceRecord (record : AttendanceRecord) (records : List AttendanceRecord) :
    List AttendanceRecord :=
  records ++ [record]

/-- `updateAttendanceRecord` (`storage.ts` lines 115-122): replace the first
record with the same `id`; no-op when absent. -/
def updateAttendanceRecord (updated : AttendanceRecord) :
    List AttendanceRecord → List AttendanceRecord
  | [] => []
  | r :: rs => if r.id == updated.id then updated :: rs else r :: updateAttendanceRecord updated rs

/-- The predicate of `getActiveRecord` (`storage.ts` line 127):
`r.userId === userId && !r.checkOutTime`. -/
def isOpenFor (userId : String) (r : AttendanceRecord) : Bool :=
  r.userId == userId && r.checkOutTime.isNone

/-- `getActiveRecord` (`storage.ts` lines 124-128): first open record of the
user. -/
def getActiveRecord (userId : String) (records : List AttendanceRecord) :
    Option AttendanceRecord :=
  records.find? (isOpenFor userId)

/-- Number of open (no `checkOutTime`) records of a user in the store. -/
def openCount (userId : String) (records : List AttendanceRecord) : ℕ :=
  records.countP (isOpenFor userId)

/-- The record built by `handleCheckIn` (`StaffDashboard.tsx` lines 141-162):
`distance = calcDist(userCoords, hospital.coords)`,
`isWithinRange = distance <= hospital.radius + 15`,
`flagged = !isWithinRange`, check-out fields absent. -/
def checkInRecord (calcDist : Coords → Coords → ℚ) (newId : String) (u : User)
    (hospital : Hospital) (userCoords : Coords) (now : ℤ) (deviceId : String) :
    AttendanceRecord :=
  let distance := calcDist userCoords hospital.coords
  let isWithinRange := decide (distance ≤ hospital.radius + 15)
  let isFlagged := !isWithinRange
  { id := newId
    userId := u.id
    userName := u.name
    hospitalId := hospital.id
    hospitalName := hospital.name
    checkInTime := now
    checkOutTime := none
    checkInCoords := userCoords
    checkOutCoords := none
    flagged := isFlagged
    distanceFromCenter := distance
    durationMinutes := none
    checkInDeviceId := some deviceId
    checkOutDeviceId := none
    anomaly := none }

/-- The successful-GPS branch of `handleCheckOut` (`StaffDashboard.tsx`
lines 192-249): closes the record with check-out coordinates, duration,
accumulated flag, device stamp and possible `DEVICE_MISMATCH` anomaly, and
yields the status-message kind shown to the user. -/
def handleCheckOutOk (calcDist : Coords → Coords → ℚ) (hospitals : List Hospital)
    (activeShift : AttendanceRecord) (u : User) (userCoords : Coords) (now : ℤ)
    (deviceId : String) : AttendanceRecord × MsgKind :=
  let isCheckoutFlagged :=
    match hospitals.find? (fun h => h.id == activeShift.hospitalId) with
    | some hospital => decide (calcDist userCoords hospital.coords > hospital.radius + 15)
    | none => false
  let durationMinutes := jsRound (((now - activeShift.checkInTime : ℤ) : ℚ) / 60000)
  let anomaly : Option Anomaly :=
    match u.boundDeviceId with
    | some b => if deviceId ≠ b then some .DEVICE_MISMATCH else none
    | none => none
  let updatedRecord :=
    { activeShift with
        checkOutTime := some now
        checkOutCoords := some userCoords
        durationMinutes := some durationMinutes
        flagged := activeShift.flagged || isCheckoutFlagged
        checkOutDeviceId := some deviceId
        anomaly := anomaly }
  let msg := if anomaly.isSome then MsgKind.error
             else if isCheckoutFlagged then MsgKind.warning
             else MsgKind.success
  (updatedRecord, msg)

/-- The GPS-failure (`catch`) branch of `handleCheckOut` (`StaffDashboard.tsx`
lines 251-267): close the record with `checkOutTime` and `durationMinutes`
only; all other fields (including the absent `checkOutCoords`) are kept by
the object spread. -/
def checkOutFailRecord (activeShift : AttendanceRecord) (now : ℤ) : AttendanceRecord :=
  { activeShift with
      checkOutTime := some now
      durationMinutes := some (jsRound (((now - activeShift.checkInTime : ℤ) : ℚ) / 60000)) }

end A

namespace A

/-- Combined state of the variant-A application on one device: the three
persisted collections plus the `App.tsx` session (`user` state) and the
`StaffDashboard.tsx` component state (`activeShift`, `statusMessage`,
`geoError`). -/
structure AppState where
  hospitals : List Hospital
  users : List User
  records : List AttendanceRecord
  deviceStore : Option String
  session : Option User
  activeShift : Option AttendanceRecord
  statusMessage : Option MsgKind
  geoError : String
deriving DecidableEq, Repr

/-- User-driven operations of the variant-A harness. `fresh` parameters stand
for `crypto.randomUUID()` results; `now` parameters for `Date.now()`. -/
inductive Op where
  | auth (username : String) (fresh : String)
  | logout
  | checkIn (hospitalId : String) (userCoords : Coords) (now : ℤ) (newId : String) (fresh : String)
  | checkInGpsFail (msg : String)
  | checkOutOk (userCoords : Coords) (now : ℤ) (fresh : String)
  | checkOutFail (now : ℤ)
deriving DecidableEq, Repr

/-- One step of the variant-A application.

* `auth`: `performLogin` in `App.tsx` calling `validateAndLoginUser`; on
  success the user becomes the session and, for non-admins, `App.tsx` mounts
  `StaffDashboard`, whose effect hook reads `getActiveRecord(user.id)` into
  `activeShift` (admins are routed to `AdminDashboard`, so no shift state).
* `logout`: `handleLogout` clears the session (the dashboard unmounts).
* `checkIn`: `handleCheckIn` (`StaffDashboard.tsx` lines 124-185). The
  check-in button is rendered only while `activeShift` is unset, so an
  attempt with an active shift is a no-op; the handler itself returns early
  when the selected hospital is not found. On the GPS-success path it lazily
  binds the device to the user when unbound, appends the new record and makes
  it the active shift.
* `checkInGpsFail`: the `catch` branch of `handleCheckIn` — only
  `setGeoError`, no record is created.
* `checkOutOk` / `checkOutFail`: the two branches of `handleCheckOut`
  (`StaffDashboard.tsx` lines 187-271), both guarded by an existing
  `activeShift`.
-/
def step (calcDist : Coords → Coords → ℚ) (op : Op) (s : AppState) : AppState :=
  match op with
  | .auth username fresh =>
    let out := validateAndLoginUser s.users s.deviceStore fresh username
    match out.1 with
    | .success u =>
      { s with
          users := out.2.1
          deviceStore := out.2.2
          session := some u
          activeShift := if u.role = UserRole.ADMIN then none else getActiveRecord u.id s.records }
    | _ => { s with users := out.2.1, deviceStore := out.2.2 }
  | .logout => { s with session := none, activeShift := none }
  | .checkIn hospitalId userCoords now newId fresh =>
    match s.session with
    | none => s
    | some u =>
      if u.role = UserRole.ADMIN then s
      else match s.activeShift with
        | some _ => s
        | none =>
          match s.hospitals.find? (fun h => h.id == hospitalId) with
          | none => s
          | some hospital =>
            let p := getOrCreateDeviceId s.deviceStore fresh
            let deviceId := p.1
            let users' :=
              if u.boundDeviceId = none
              then updateUser { u with boundDeviceId := some deviceId } s.users
              else s.users
            let newRecord := checkInRecord calcDist newId u hospital userCoords now deviceId
            { s with
                users := users'
                deviceStore := p.2
                records := saveAttendanceRecord newRecord s.records
                activeShift := some newRecord
                geoError := ""
                statusMessage := some (if newRecord.flagged then MsgKind.warning else MsgKind.success) }
  | .checkInGpsFail msg =>
    match s.session with
    | none => s
    | some u =>
      if u.role = UserRole.ADMIN then s
      else match s.activeShift with
        | some _ => s
        | none => { s with geoError := msg }
  | .checkOutOk userCoords now fresh =>
    match s.session with
    | none => s
    | some u =>
      if u.role = UserRole.ADMIN then s
      else match s.activeShift with
        | none => s
        | some activeShift =>
          let p := getOrCreateDeviceId s.deviceStore fresh
          let out := handleCheckOutOk calcDist s.hospitals activeShift u userCoords now p.1
          { s with
              deviceStore := p.2
              records := updateAttendanceRecord out.1 s.records
              activeShift := none
              statusMessage := some out.2 }
  | .checkOutFail now =>
    match s.session with
    | none => s
    | some u =>
      if u.role = UserRole.ADMIN then s
      else match s.activeShift with
        | none => s
        | some activeShift =>
          { s with
              records := updateAttendanceRecord (checkOutFailRecord activeShift now) s.records
              activeShift := none
              statusMessage := some MsgKind.warning }

/-- Run a sequence of operations. -/
def run (calcDist : Coords → Coords → ℚ) (s : AppState) : List Op → AppState
  | [] => s
  | op :: ops => run calcDist (step calcDist op s) ops

/-- Harness well-formedness of a single operation: a check-in uses a freshly
generated record id (`crypto.randomUUID()` does not collide with stored
ids). -/
def okStep (s : AppState) : Op → Bool
  | .checkIn _ _ _ newId _ => !((s.records.map (fun r => r.id)).contains newId)
  | _ => true

/-- Harness well-formedness of an operation sequence. -/
def okTrace (calcDist : Coords → Coords → ℚ) : AppState → List Op → Bool
  | _, [] => true
  | s, op :: ops => okStep s op && okTrace calcDist (step calcDist op s) ops

end A

namespace A

/-- No two distinct stored users hold the same non-null `boundDeviceId`. -/
@[reducible] def UsersUnique (users : List User) : Prop :=
  ∀ u1 ∈ users, ∀ u2 ∈ users,
    u1.id ≠ u2.id → u1.boundDeviceId.isSome = true → u1.boundDeviceId ≠ u2.boundDeviceId

/-- A non-admin session user was returned by `validateAndLoginUser`, hence is
bound to the device id persisted on this device. -/
def SessionOk (s : AppState) : Prop :=
  ∀ u, s.session = some u → u.role ≠ UserRole.ADMIN →
    ∃ d, u.boundDeviceId = some d ∧ s.deviceStore = some d

/-- The dashboard's `activeShift`, when set, is an open stored record of the
session user. -/
def ShiftSome (s : AppState) : Prop :=
  ∀ r, s.activeShift = some r →
    r ∈ s.records ∧ r.checkOutTime = none ∧ ∃ u, s.session = some u ∧ r.userId = u.id

/-- When no shift is active, the (non-admin) session user has no open stored
record. -/
def ShiftNone (s : AppState) : Prop :=
  s.activeShift = none → ∀ u, s.session = some u → u.role ≠ UserRole.ADMIN →
    openCount u.id s.records = 0

/-- The reachable-state invariant of the variant-A application. -/
def Inv (s : AppState) : Prop :=
  UsersUnique s.users ∧ SessionOk s ∧ (s.records.map (fun r => r.id)).Nodup ∧
    (∀ uid, openCount uid s.records ≤ 1) ∧ ShiftSome s ∧ ShiftNone s

theorem getOrCreateDeviceId_snd (st : Option String) (f : String) :
    (getOrCreateDeviceId st f).2 = some (getOrCreateDeviceId st f).1 := by
  cases st <;> rfl

theorem mem_updateUser {v : User} :
    ∀ {l : List User} {x : User}, x ∈ updateUser v l → x = v ∨ x ∈ l := by
  intro l
  induction l with
  | nil => intro x hx; simp [updateUser] at hx
  | cons u us ih =>
    intro x hx
    simp only [updateUser] at hx
    split at hx
    · rcases List.mem_cons.mp hx with h | h
      · exact Or.inl h
      · exact Or.inr (List.mem_cons_of_mem _ h)
    · rcases List.mem_cons.mp hx with h | h
      · exact Or.inr (h ▸ List.mem_cons_self _ _)
      · rcases ih h with h' | h'
        · exact Or.inl h'
        · exact Or.inr (List.mem_cons_of_mem _ h')

theorem mem_updateAttendanceRecord {v : AttendanceRecord} :
    ∀ {l : List AttendanceRecord} {x : AttendanceRecord},
      x ∈ updateAttendanceRecord v l → x = v ∨ x ∈ l := by
  intro l
  induction l with
  | nil => intro x hx; simp [updateAttendanceRecord] at hx
  | cons u us ih =>
    intro x hx
    simp only [updateAttendanceRecord] at hx
    split at hx
    · rcases List.mem_cons.mp hx with h | h
      · exact Or.inl h
      · exact Or.inr (List.mem_cons_of_mem _ h)
    · rcases List.mem_cons.mp hx with h | h
      · exact Or.inr (h ▸ List.mem_cons_self _ _)
      · rcases ih h with h' | h'
        · exact Or.inl h'
        · exact Or.inr (List.mem_cons_of_mem _ h')

theorem updateAttendanceRecord_map_id (rec : AttendanceRecord) :
    ∀ l : List AttendanceRecord,
      (updateAttendanceRecord rec l).map (fun r => r.id) = l.map (fun r => r.id) := by
  intro l
  induction l with
  | nil => rfl
  | cons r rs ih =>
    simp only [updateAttendanceRecord]
    split
    next hbeq =>
      simp only [List.map_cons]
      rw [(beq_iff_eq.mp hbeq)]
    next => simp [List.map_cons, ih]

theorem countP_updateAttendanceRecord (p : AttendanceRecord → Bool) (rec : AttendanceRecord) :
    ∀ l : List AttendanceRecord, (l.map (fun r => r.id)).Nodup →
      ∀ r ∈ l, rec.id = r.id →
      (updateAttendanceRecord rec l).countP p + (if p r then 1 else 0) =
        l.countP p + (if p rec then 1 else 0) := by
  intro l
  induction l with
  | nil => intro _ r hr; exact absurd hr (List.not_mem_nil r)
  | cons x xs ih =>
    intro hnd r hr hid
    rw [List.map_cons, List.nodup_cons] at hnd
    simp only [updateAttendanceRecord]
    split
    next hbeq =>
      have hxid : x.id = rec.id := beq_iff_eq.mp hbeq
      have hrx : r = x := by
        rcases List.mem_cons.mp hr with h | h
        · exact h
        · exact absurd (hxid ▸ hid ▸ List.mem_map_of_mem (fun q => q.id) h) hnd.1
      subst hrx
      simp only [List.countP_cons]
      cases hp : p rec <;> cases hq : p r <;> simp [hp, hq]
    next hbeq =>
      have hxid : ¬ x.id = rec.id := by
        intro h
        exact hbeq (beq_iff_eq.mpr h)
      have hrx : r ≠ x := by
        intro h
        exact hxid (h ▸ hid).symm
      have hrxs : r ∈ xs := by
        rcases List.mem_cons.mp hr with h | h
        · exact absurd h hrx
        · exact h
      simp only [List.countP_cons]
      have := ih hnd.2 r hrxs hid
      omega

theorem nodup_map_id_append (l : List AttendanceRecord) (rec : AttendanceRecord)
    (hnd : (l.map (fun r => r.id)).Nodup) (hfresh : rec.id ∉ l.map (fun r => r.id)) :
    ((l ++ [rec]).map (fun r => r.id)).Nodup := by
  rw [List.map_append]
  induction l with
  | nil => simp
  | cons x xs ih =>
    rw [List.map_cons, List.nodup_cons] at hnd
    rw [List.map_cons] at hfresh
    simp only [List.map_cons, List.cons_append, List.nodup_cons]
    constructor
    · intro hmem
      rcases List.mem_append.mp hmem with h | h
      · exact hnd.1 h
      · simp only [List.map_nil, List.mem_cons, List.not_mem_nil, or_false] at h
        exact hfresh (by simp [h])
    · exact ih hnd.2 (fun h => hfresh (List.mem_cons_of_mem _ h))

end A

namespace A

theorem vlu_usersUnique (users : List User) (dStore : Option String) (fresh username : String)
    (h : UsersUnique users) :
    UsersUnique (validateAndLoginUser users dStore fresh username).2.1 := by
  cases hfind : users.find? (fun u => u.username == username) with
  | none => simpa [validateAndLoginUser, hfind] using h
  | some targetUser =>
    by_cases hrole : targetUser.role = UserRole.ADMIN
    · simpa [validateAndLoginUser, hfind, hrole] using h
    · cases hown : users.find?
        (fun u => u.boundDeviceId == some (getOrCreateDeviceId dStore fresh).1 && u.id != targetUser.id) with
      | some owner => simpa [validateAndLoginUser, hfind, hrole, hown] using h
      | none =>
        cases hb : targetUser.boundDeviceId with
        | some b =>
          by_cases hbc : b ≠ (getOrCreateDeviceId dStore fresh).1
          · simpa [validateAndLoginUser, hfind, hrole, hown, hb, hbc] using h
          · simpa [validateAndLoginUser, hfind, hrole, hown, hb, hbc] using h
        | none =>
          simp only [validateAndLoginUser, hfind, hrole, hown, hb, if_neg hrole]
          intro u1 h1 u2 h2 hne hsome heq
          have hnone := List.find?_eq_none.mp hown
          rcases mem_updateUser h1 with h1' | h1' <;> rcases mem_updateUser h2 with h2' | h2'
          · exact hne (h1' ▸ h2' ▸ rfl)
          · have hu1 : u1.boundDeviceId = some (getOrCreateDeviceId dStore fresh).1 := by
              rw [h1']
            have hu2 : u2.boundDeviceId = some (getOrCreateDeviceId dStore fresh).1 := by
              rw [← heq, hu1]
            have := hnone u2 h2'
            simp only [Bool.and_eq_true, beq_iff_eq, bne_iff_ne, ne_eq, not_and, not_not] at this
            have hid2 : u2.id = targetUser.id := this hu2
            exact hne (by rw [h1', hid2])
          · have hu2 : u2.boundDeviceId = some (getOrCreateDeviceId dStore fresh).1 := by
              rw [h2']
            have hu1 : u1.boundDeviceId = some (getOrCreateDeviceId dStore fresh).1 := by
              rw [heq, hu2]
            have := hnone u1 h1'
            simp only [Bool.and_eq_true, beq_iff_eq, bne_iff_ne, ne_eq, not_and, not_not] at this
            have hid1 : u1.id = targetUser.id := this hu1
            exact hne (by rw [h2', hid1])
          · exact h u1 h1' u2 h2' hne hsome heq

theorem vlu_success (users : List User) (dStore : Option String) (fresh username : String)
    (u : User) (h : (validateAndLoginUser users dStore fresh username).1 = .success u) :
    (u.role = UserRole.ADMIN ∧
      validateAndLoginUser users dStore fresh username = (.success u, users, dStore)) ∨
    (∃ d, u.boundDeviceId = some d ∧
      (validateAndLoginUser users dStore fresh username).2.2 = some d) := by
  cases hfind : users.find? (fun u => u.username == username) with
  | none => simp [validateAndLoginUser, hfind] at h
  | some targetUser =>
    by_cases hrole : targetUser.role = UserRole.ADMIN
    · left
      simp only [validateAndLoginUser, hfind, if_pos hrole] at h ⊢
      obtain rfl : targetUser = u := by
        cases h
        rfl
      exact ⟨hrole, rfl⟩
    · cases hown : users.find?
        (fun u => u.boundDeviceId == some (getOrCreateDeviceId dStore fresh).1 && u.id != targetUser.id) with
      | some owner => simp [validateAndLoginUser, hfind, hrole, hown] at h
      | none =>
        cases hb : targetUser.boundDeviceId with
        | some b =>
          by_cases hbc : b ≠ (getOrCreateDeviceId dStore fresh).1
          · simp [validateAndLoginUser, hfind, hrole, hown, hb, hbc] at h
          · right
            simp only [validateAndLoginUser, hfind, if_neg hrole, hown, hb, if_neg hbc] at h ⊢
            obtain rfl : targetUser = u := by
              cases h
              rfl
            push_neg at hbc
            exact ⟨(getOrCreateDeviceId dStore fresh).1, by rw [hb, hbc],
              getOrCreateDeviceId_snd dStore fresh⟩
        | none =>
          right
          simp only [validateAndLoginUser, hfind, if_neg hrole, hown, hb] at h ⊢
          obtain rfl : { targetUser with boundDeviceId := some (getOrCreateDeviceId dStore fresh).1 } = u := by
            cases h
            rfl
          exact ⟨(getOrCreateDeviceId dStore fresh).1, rfl, getOrCreateDeviceId_snd dStore fresh⟩

theorem vlu_deviceStore (users : List User) {d : String} (fresh username : String) :
    (validateAndLoginUser users (some d) fresh username).2.2 = some d := by
  cases hfind : users.find? (fun u => u.username == username) with
  | none => simp [validateAndLoginUser, hfind]
  | some targetUser =>
    by_cases hrole : targetUser.role = UserRole.ADMIN
    · simp [validateAndLoginUser, hfind, hrole]
    · cases hown : users.find?
        (fun u => u.boundDeviceId == some d && u.id != targetUser.id) with
      | some owner => simp [validateAndLoginUser, hfind, hrole, hown, getOrCreateDeviceId]
      | none =>
        cases hb : targetUser.boundDeviceId with
        | some b =>
          by_cases hbc : b = d
          · simp [validateAndLoginUser, hfind, hrole, hown, hb, hbc, getOrCreateDeviceId]
          · simp [validateAndLoginUser, hfind, hrole, hown, hb, hbc, getOrCreateDeviceId]
        | none => simp [validateAndLoginUser, hfind, hrole, hown, hb, getOrCreateDeviceId]

end A

namespace A

theorem isOpenFor_true_iff (uid : String) (r : AttendanceRecord) :
    isOpenFor uid r = true ↔ r.userId = uid ∧ r.checkOutTime = none := by
  simp [isOpenFor, Option.isNone_iff_eq_none]

theorem openCount_zero_of_find_none {uid : String} {l : List AttendanceRecord}
    (h : getActiveRecord uid l = none) : openCount uid l = 0 :=
  List.countP_eq_zero.mpr (List.find?_eq_none.mp h)

theorem one_le_openCount {uid : String} {r : AttendanceRecord} {l : List AttendanceRecord}
    (hr : r ∈ l) (hp : isOpenFor uid r = true) : 1 ≤ openCount uid l :=
  Nat.succ_le_of_lt (List.countP_pos_iff.mpr ⟨r, hr, hp⟩)

theorem inv_step (calcDist : Coords → Coords → ℚ) (op : Op) (s : AppState)
    (hInv : Inv s) (hok : okStep s op = true) : Inv (step calcDist op s) := by
  obtain ⟨hUU, hSO, hND, hOC, hSS, hSN⟩ := hInv
  have hInvs : Inv s := ⟨hUU, hSO, hND, hOC, hSS, hSN⟩
  cases op with
  | auth username fresh =>
    cases hres : (validateAndLoginUser s.users s.deviceStore fresh username).1 with
    | success u =>
      simp only [step, hres]
      refine ⟨vlu_usersUnique _ _ _ _ hUU, ?_, hND, hOC, ?_, ?_⟩
      · intro u' hu' hrole'
        obtain rfl : u = u' := Option.some.inj hu'
        rcases vlu_success _ _ _ _ u hres with ⟨hadm', _⟩ | ⟨d, hbd, hds'⟩
        · exact absurd hadm' hrole'
        · exact ⟨d, hbd, hds'⟩
      · intro r hr
        by_cases hadm : u.role = UserRole.ADMIN
        · rw [if_pos hadm] at hr
          cases hr
        · rw [if_neg hadm] at hr
          have hmem := List.mem_of_find?_eq_some hr
          have hp := List.find?_some hr
          rw [isOpenFor_true_iff] at hp
          exact ⟨hmem, hp.2, u, rfl, hp.1⟩
      · intro hn u' hu' hrole'
        obtain rfl : u = u' := Option.some.inj hu'
        by_cases hadm : u.role = UserRole.ADMIN
        · exact absurd hadm hrole'
        · rw [if_neg hadm] at hn
          exact openCount_zero_of_find_none hn
    | userNotFound =>
      simp only [step, hres]
      refine ⟨vlu_usersUnique _ _ _ _ hUU, ?_, hND, hOC, hSS, hSN⟩
      intro u' hu' hrole'
      obtain ⟨d, hbd, hds⟩ := hSO u' hu' hrole'
      exact ⟨d, hbd, by rw [hds, vlu_deviceStore]⟩
    | deviceOwnedByOther ownerName =>
      simp only [step, hres]
      refine ⟨vlu_usersUnique _ _ _ _ hUU, ?_, hND, hOC, hSS, hSN⟩
      intro u' hu' hrole'
      obtain ⟨d, hbd, hds⟩ := hSO u' hu' hrole'
      exact ⟨d, hbd, by rw [hds, vlu_deviceStore]⟩
    | accountBoundElsewhere =>
      simp only [step, hres]
      refine ⟨vlu_usersUnique _ _ _ _ hUU, ?_, hND, hOC, hSS, hSN⟩
      intro u' hu' hrole'
      obtain ⟨d, hbd, hds⟩ := hSO u' hu' hrole'
      exact ⟨d, hbd, by rw [hds, vlu_deviceStore]⟩
  | logout =>
    refine ⟨hUU, ?_, hND, hOC, ?_, ?_⟩
    · intro u hu
      simp [step] at hu
    · intro r hr
      simp [step] at hr
    · intro _ u hu
      simp [step] at hu
  | checkIn hid userCoords now newId fresh =>
    cases hsess : s.session with
    | none =>
      have hs : step calcDist (Op.checkIn hid userCoords now newId fresh) s = s := by
        simp [step, hsess]
      rw [hs]; exact hInvs
    | some u =>
      by_cases hadm : u.role = UserRole.ADMIN
      · have hs : step calcDist (Op.checkIn hid userCoords now newId fresh) s = s := by
          simp [step, hsess, hadm]
        rw [hs]; exact hInvs
      · cases hshift : s.activeShift with
        | some r0 =>
          have hs : step calcDist (Op.checkIn hid userCoords now newId fresh) s = s := by
            simp [step, hsess, hadm, hshift]
          rw [hs]; exact hInvs
        | none =>
          cases hhosp : s.hospitals.find? (fun h => h.id == hid) with
          | none =>
            have hs : step calcDist (Op.checkIn hid userCoords now newId fresh) s = s := by
              simp [step, hsess, hadm, hshift, hhosp]
            rw [hs]; exact hInvs
          | some hospital =>
            obtain ⟨d, hbd, hds⟩ := hSO u hsess hadm
            have hfresh : newId ∉ s.records.map (fun r => r.id) := by
              simpa [okStep] using hok
            have hs : step calcDist (Op.checkIn hid userCoords now newId fresh) s =
                { s with
                    deviceStore := some d
                    records := s.records ++ [checkInRecord calcDist newId u hospital userCoords now d]
                    activeShift := some (checkInRecord calcDist newId u hospital userCoords now d)
                    geoError := ""
                    statusMessage := some
                      (if (checkInRecord calcDist newId u hospital userCoords now d).flagged
                       then MsgKind.warning else MsgKind.success) } := by
              simp [step, hsess, hadm, hshift, hhosp, hds, hbd, getOrCreateDeviceId,
                saveAttendanceRecord]
            rw [hs]
            refine ⟨hUU, ?_, ?_, ?_, ?_, ?_⟩
            · intro u' hu' hrole'
              obtain rfl : u = u' := by
                rw [hsess] at hu'
                exact Option.some.inj hu'
              exact ⟨d, hbd, rfl⟩
            · exact nodup_map_id_append s.records _ hND hfresh
            · intro uid
              by_cases huid : uid = u.id
              · have h0 : List.countP (isOpenFor uid) s.records = 0 := by
                  have h0' := hSN hshift u hsess hadm
                  simp only [openCount] at h0'
                  rw [huid]
                  exact h0'
                simp only [openCount, List.countP_append, List.countP_cons, List.countP_nil]
                rw [h0]
                split <;> simp
              · have hzero : isOpenFor uid (checkInRecord calcDist newId u hospital userCoords now d)
                    = false := by
                  simp only [isOpenFor, checkInRecord, Bool.and_eq_false_iff]
                  left
                  simp only [beq_eq_false_iff_ne, ne_eq]
                  exact fun h => huid h.symm
                simpa [openCount, List.countP_append, List.countP_cons, hzero] using hOC uid
            · intro r hr
              obtain rfl : checkInRecord calcDist newId u hospital userCoords now d = r :=
                Option.some.inj hr
              refine ⟨List.mem_append.mpr (Or.inr (List.mem_cons_self _ _)), rfl, u, hsess, rfl⟩
            · intro hn
              simp at hn
  | checkInGpsFail msg =>
    cases hsess : s.session with
    | none =>
      have hs : step calcDist (Op.checkInGpsFail msg) s = s := by
        simp [step, hsess]
      rw [hs]; exact hInvs
    | some u =>
      by_cases hadm : u.role = UserRole.ADMIN
      · have hs : step calcDist (Op.checkInGpsFail msg) s = s := by
          simp [step, hsess, hadm]
        rw [hs]; exact hInvs
      · cases hshift : s.activeShift with
        | some r0 =>
          have hs : step calcDist (Op.checkInGpsFail msg) s = s := by
            simp [step, hsess, hadm, hshift]
          rw [hs]; exact hInvs
        | none =>
          have hs : step calcDist (Op.checkInGpsFail msg) s = { s with geoError := msg } := by
            simp [step, hsess, hadm, hshift]
          rw [hs]
          exact ⟨hUU, hSO, hND, hOC, hSS, hSN⟩
  | checkOutOk userCoords now fresh =>
    cases hsess : s.session with
    | none =>
      have hs : step calcDist (Op.checkOutOk userCoords now fresh) s = s := by
        simp [step, hsess]
      rw [hs]; exact hInvs
    | some u =>
      by_cases hadm : u.role = UserRole.ADMIN
      · have hs : step calcDist (Op.checkOutOk userCoords now fresh) s = s := by
          simp [step, hsess, hadm]
        rw [hs]; exact hInvs
      · cases hshift : s.activeShift with
        | none =>
          have hs : step calcDist (Op.checkOutOk userCoords now fresh) s = s := by
            simp [step, hsess, hadm, hshift]
          rw [hs]; exact hInvs
        | some r =>
          obtain ⟨d, hbd, hds⟩ := hSO u hsess hadm
          obtain ⟨hmem, hopen, u', hsess', huid⟩ := hSS r hshift
          obtain rfl : u = u' := by
            rw [hsess] at hsess'
            exact Option.some.inj hsess'
          have hs : step calcDist (Op.checkOutOk userCoords now fresh) s =
              { s with
                  deviceStore := some d
                  records := updateAttendanceRecord
                    (handleCheckOutOk calcDist s.hospitals r u userCoords now d).1 s.records
                  activeShift := none
                  statusMessage := some (handleCheckOutOk calcDist s.hospitals r u userCoords now d).2 } := by
            simp [step, hsess, hadm, hshift, hds, getOrCreateDeviceId]
          rw [hs]
          have hrecId : (handleCheckOutOk calcDist s.hospitals r u userCoords now d).1.id = r.id := by
            simp [handleCheckOutOk]
          have hrecClosed :
              (handleCheckOutOk calcDist s.hospitals r u userCoords now d).1.checkOutTime = some now := by
            simp [handleCheckOutOk]
          refine ⟨hUU, ?_, ?_, ?_, ?_, ?_⟩
          · intro u' hu' hrole'
            obtain rfl : u = u' := by
              rw [hsess] at hu'
              exact Option.some.inj hu'
            exact ⟨d, hbd, rfl⟩
          · rw [updateAttendanceRecord_map_id]
            exact hND
          · intro uid
            have hcnt := countP_updateAttendanceRecord (isOpenFor uid)
              (handleCheckOutOk calcDist s.hospitals r u userCoords now d).1 s.records hND r hmem hrecId
            have hclosed : isOpenFor uid (handleCheckOutOk calcDist s.hospitals r u userCoords now d).1
                = false := by
              simp [isOpenFor, hrecClosed]
            rw [hclosed] at hcnt
            have := hOC uid
            simp only [openCount] at this ⊢
            by_cases hpr : isOpenFor uid r = true
            · rw [if_pos hpr] at hcnt
              simp only [if_neg (by simp : ¬ (false = true))] at hcnt
              omega
            · rw [if_neg hpr] at hcnt
              simp only [if_neg (by simp : ¬ (false = true))] at hcnt
              omega
          · intro r' hr'
            simp at hr'
          · intro _ u'' hu'' hrole''
            obtain rfl : u = u'' := by
              rw [hsess] at hu''
              exact Option.some.inj hu''
            have hpr : isOpenFor u.id r = true := by
              rw [isOpenFor_true_iff]
              exact ⟨huid, hopen⟩
            have h1 : openCount u.id s.records = 1 :=
              Nat.le_antisymm (hOC u.id) (one_le_openCount hmem hpr)
            have hcnt := countP_updateAttendanceRecord (isOpenFor u.id)
              (handleCheckOutOk calcDist s.hospitals r u userCoords now d).1 s.records hND r hmem hrecId
            have hclosed : isOpenFor u.id (handleCheckOutOk calcDist s.hospitals r u userCoords now d).1
                = false := by
              simp [isOpenFor, hrecClosed]
            rw [hclosed, if_pos hpr] at hcnt
            simp only [if_neg (by simp : ¬ (false = true))] at hcnt
            simp only [openCount] at h1 ⊢
            omega
  | checkOutFail now =>
    cases hsess : s.session with
    | none =>
      have hs : step calcDist (Op.checkOutFail now) s = s := by
        simp [step, hsess]
      rw [hs]; exact hInvs
    | some u =>
      by_cases hadm : u.role = UserRole.ADMIN
      · have hs : step calcDist (Op.checkOutFail now) s = s := by
          simp [step, hsess, hadm]
        rw [hs]; exact hInvs
      · cases hshift : s.activeShift with
        | none =>
          have hs : step calcDist (Op.checkOutFail now) s = s := by
            simp [step, hsess, hadm, hshift]
          rw [hs]; exact hInvs
        | some r =>
          obtain ⟨hmem, hopen, u', hsess', huid⟩ := hSS r hshift
          obtain rfl : u = u' := by
            rw [hsess] at hsess'
            exact Option.some.inj hsess'
          have hs : step calcDist (Op.checkOutFail now) s =
              { s with
                  records := updateAttendanceRecord (checkOutFailRecord r now) s.records
                  activeShift := none
                  statusMessage := some MsgKind.warning } := by
            simp [step, hsess, hadm, hshift]
          rw [hs]
          have hrecId : (checkOutFailRecord r now).id = r.id := rfl
          have hrecClosed : (checkOutFailRecord r now).checkOutTime = some now := rfl
          refine ⟨hUU, ?_, ?_, ?_, ?_, ?_⟩
          · intro u' hu' hrole'
            obtain rfl : u = u' := by
              rw [hsess] at hu'
              exact Option.some.inj hu'
            exact hSO u hsess hrole'
          · rw [updateAttendanceRecord_map_id]
            exact hND
          · intro uid
            have hcnt := countP_updateAttendanceRecord (isOpenFor uid)
              (checkOutFailRecord r now) s.records hND r hmem hrecId
            have hclosed : isOpenFor uid (checkOutFailRecord r now) = false := by
              simp [isOpenFor, hrecClosed]
            rw [hclosed] at hcnt
            have := hOC uid
            simp only [openCount] at this ⊢
            by_cases hpr : isOpenFor uid r = true
            · rw [if_pos hpr] at hcnt
              simp only [if_neg (by simp : ¬ (false = true))] at hcnt
              omega
            · rw [if_neg hpr] at hcnt
              simp only [if_neg (by simp : ¬ (false = true))] at hcnt
              omega
          · intro r' hr'
            simp at hr'
          · intro _ u'' hu'' hrole''
            obtain rfl : u = u'' := by
              rw [hsess] at hu''
              exact Option.some.inj hu''
            have hpr : isOpenFor u.id r = true := by
              rw [isOpenFor_true_iff]
              exact ⟨huid, hopen⟩
            have h1 : openCount u.id s.records = 1 :=
              Nat.le_antisymm (hOC u.id) (one_le_openCount hmem hpr)
            have hcnt := countP_updateAttendanceRecord (isOpenFor u.id)
              (checkOutFailRecord r now) s.records hND r hmem hrecId
            have hclosed : isOpenFor u.id (checkOutFailRecord r now) = false := by
              simp [isOpenFor, hrecClosed]
            rw [hclosed, if_pos hpr] at hcnt
            simp only [if_neg (by simp : ¬ (false = true))] at hcnt
            simp only [openCount] at h1 ⊢
            omega

end A

namespace A

theorem inv_run (calcDist : Coords → Coords → ℚ) (s : AppState) (ops : List Op)
    (hInv : Inv s) (hok : okTrace calcDist s ops = true) : Inv (run calcDist s ops) := by
  induction ops generalizing s with
  | nil => exact hInv
  | cons op ops ih =>
    simp only [okTrace, Bool.and_eq_true] at hok
    exact ih _ (inv_step calcDist op s hInv hok.1) hok.2

/-- A closed record carries a present, non-negative `durationMinutes`. -/
def durOk (r : AttendanceRecord) : Bool :=
  match r.durationMinutes with
  | some m => decide (0 ≤ m)
  | none => false

/-- The duration invariant of the spec: `checkOutTime` present implies
`durationMinutes` present and non-negative, for every stored record. -/
@[reducible] def DurInv (records : List AttendanceRecord) : Prop :=
  ∀ r ∈ records, r.checkOutTime.isSome = true → durOk r = true

/-- The monotone-clock side condition: a check-out operation does not carry a
timestamp earlier than the active record's check-in time. -/
def clockOk (s : AppState) : Op → Bool
  | .checkOutOk _ now _ =>
    match s.activeShift with
    | some r => decide (r.checkInTime ≤ now)
    | none => true
  | .checkOutFail now =>
    match s.activeShift with
    | some r => decide (r.checkInTime ≤ now)
    | none => true
  | _ => true

theorem jsRound_nonneg {q : ℚ} (h : 0 ≤ q) : 0 ≤ jsRound q := by
  unfold jsRound
  have h2 : (0 : ℚ) ≤ q + 1 / 2 := by linarith
  exact Rat.le_floor.mpr (by exact_mod_cast h2)

end A

namespace A

/-- C9 (amended): for every record in the store, if `checkOutTime` is present
then `durationMinutes` is present and non-negative, with
`durationMinutes = round((now - checkInTime) / 60000)` at the moment of
checkout; the invariant is preserved by every `checkIn` and `checkOut`
operation — including the GPS-failure checkout path — provided the checkout
timestamp is not earlier than the active record's `checkInTime` (the code
applies no clamp, so a backward clock jump violates non-negativity, see the
counterexample). -/
theorem claim_C9_duration_invariant (calcDist : Coords → Coords → ℚ) (op : Op) (s : AppState)
    (hD : DurInv s.records) (hclock : clockOk s op = true) :
    DurInv ((step calcDist op s).records) := by
  cases op with
  | auth username fresh =>
    cases hres : (validateAndLoginUser s.users s.deviceStore fresh username).1 with
    | success u => simp only [step, hres]; exact hD
    | userNotFound => simp only [step, hres]; exact hD
    | deviceOwnedByOther o => simp only [step, hres]; exact hD
    | accountBoundElsewhere => simp only [step, hres]; exact hD
  | logout => exact hD
  | checkIn hid userCoords now newId fresh =>
    cases hsess : s.session with
    | none => simp only [step, hsess]; exact hD
    | some u =>
      by_cases hadm : u.role = UserRole.ADMIN
      · have hrec : (step calcDist (Op.checkIn hid userCoords now newId fresh) s).records
            = s.records := by
          simp [step, hsess, hadm]
        rw [hrec]; exact hD
      · cases hshift : s.activeShift with
        | some r0 =>
          have hrec : (step calcDist (Op.checkIn hid userCoords now newId fresh) s).records
              = s.records := by
            simp [step, hsess, hadm, hshift]
          rw [hrec]; exact hD
        | none =>
          cases hhosp : s.hospitals.find? (fun h => h.id == hid) with
          | none =>
            have hrec : (step calcDist (Op.checkIn hid userCoords now newId fresh) s).records
                = s.records := by
              simp [step, hsess, hadm, hshift, hhosp]
            rw [hrec]; exact hD
          | some hospital =>
            have hrec : (step calcDist (Op.checkIn hid userCoords now newId fresh) s).records
                = s.records ++ [checkInRecord calcDist newId u hospital userCoords now
                    (getOrCreateDeviceId s.deviceStore fresh).1] := by
              simp [step, hsess, hadm, hshift, hhosp, saveAttendanceRecord]
            rw [hrec]
            intro r hr hsome
            rcases List.mem_append.mp hr with h | h
            · exact hD r h hsome
            · simp only [List.mem_cons, List.not_mem_nil, or_false] at h
              subst h
              simp [checkInRecord] at hsome
  | checkInGpsFail msg =>
    cases hsess : s.session with
    | none => simp only [step, hsess]; exact hD
    | some u =>
      by_cases hadm : u.role = UserRole.ADMIN
      · have hrec : (step calcDist (Op.checkInGpsFail msg) s).records = s.records := by
          simp [step, hsess, hadm]
        rw [hrec]; exact hD
      · cases hshift : s.activeShift with
        | some r0 =>
          have hrec : (step calcDist (Op.checkInGpsFail msg) s).records = s.records := by
            simp [step, hsess, hadm, hshift]
          rw [hrec]; exact hD
        | none =>
          have hrec : (step calcDist (Op.checkInGpsFail msg) s).records = s.records := by
            simp [step, hsess, hadm, hshift]
          rw [hrec]; exact hD
  | checkOutOk userCoords now fresh =>
    cases hsess : s.session with
    | none => simp only [step, hsess]; exact hD
    | some u =>
      by_cases hadm : u.role = UserRole.ADMIN
      · have hrec : (step calcDist (Op.checkOutOk userCoords now fresh) s).records = s.records := by
          simp [step, hsess, hadm]
        rw [hrec]; exact hD
      · cases hshift : s.activeShift with
        | none =>
          have hrec : (step calcDist (Op.checkOutOk userCoords now fresh) s).records = s.records := by
            simp [step, hsess, hadm, hshift]
          rw [hrec]; exact hD
        | some r =>
          have hle : r.checkInTime ≤ now := by
            simpa [clockOk, hshift] using hclock
          have hrec : (step calcDist (Op.checkOutOk userCoords now fresh) s).records
              = updateAttendanceRecord
                  (handleCheckOutOk calcDist s.hospitals r u userCoords now
                    (getOrCreateDeviceId s.deviceStore fresh).1).1 s.records := by
            simp [step, hsess, hadm, hshift]
          rw [hrec]
          intro r' hr' _
          rcases mem_updateAttendanceRecord hr' with rfl | hold
          · have hdur : (handleCheckOutOk calcDist s.hospitals r u userCoords now
                (getOrCreateDeviceId s.deviceStore fresh).1).1.durationMinutes
                = some (jsRound (((now - r.checkInTime : ℤ) : ℚ) / 60000)) := by
              simp [handleCheckOutOk]
            simp only [durOk, hdur, decide_eq_true_eq]
            apply jsRound_nonneg
            apply div_nonneg
            · exact_mod_cast sub_nonneg.mpr hle
            · norm_num
          · exact hD r' hold (by assumption)
  | checkOutFail now =>
    cases hsess : s.session with
    | none => simp only [step, hsess]; exact hD
    | some u =>
      by_cases hadm : u.role = UserRole.ADMIN
      · have hrec : (step calcDist (Op.checkOutFail now) s).records = s.records := by
          simp [step, hsess, hadm]
        rw [hrec]; exact hD
      · cases hshift : s.activeShift with
        | none =>
          have hrec : (step calcDist (Op.checkOutFail now) s).records = s.records := by
            simp [step, hsess, hadm, hshift]
          rw [hrec]; exact hD
        | some r =>
          have hle : r.checkInTime ≤ now := by
            simpa [clockOk, hshift] using hclock
          have hrec : (step calcDist (Op.checkOutFail now) s).records
              = updateAttendanceRecord (checkOutFailRecord r now) s.records := by
            simp [step, hsess, hadm, hshift]
          rw [hrec]
          intro r' hr' _
          rcases mem_updateAttendanceRecord hr' with rfl | hold
          · have hdur : (checkOutFailRecord r now).durationMinutes
                = some (jsRound (((now - r.checkInTime : ℤ) : ℚ) / 60000)) := rfl
            simp only [durOk, hdur, decide_eq_true_eq]
            apply jsRound_nonneg
            apply div_nonneg
            · exact_mod_cast sub_nonneg.mpr hle
            · norm_num
          · exact hD r' hold (by assumption)

end A


namespace A

/-- Staff user already bound to this device, as after a successful login. -/
def cexBound : User :=
  ⟨"u1", "Alice Staff", "alice", UserRole.STAFF, some "h1", some "dev-1", none⟩

/-- An open attendance record of `cexBound`, checked in at t = 600000 ms. -/
def cexOpen : AttendanceRecord :=
  ⟨"rec-1", "u1", "Alice Staff", "h1", "General Hospital", 600000, none,
    ⟨40, -75, none⟩, none, false, 0, none, some "dev-1", none, none⟩

/-- Hospital for the concrete scenarios. -/
def cexHospital : Hospital :=
  ⟨"h1", "General Hospital", "REG-1", "gh", "pw", none, ⟨40, -75, none⟩, 15⟩

/-- Distance function used in the concrete scenarios (user at the center). -/
def cexDist : Coords → Coords → ℚ := fun _ _ => 0

/-- Mid-shift application state: `cexBound` is logged in with the open record
`cexOpen` as the active shift. -/
def cexState : AppState :=
  ⟨[cexHospital], [cexBound], [cexOpen], some "dev-1", some cexBound, some cexOpen, none, ""⟩

/-- C9 counterexample: from a shift checked in at t = 600000, the GPS-failure
checkout path at t = 0 (a backward clock jump) stores
`durationMinutes = round((0 - 600000) / 60000) = -10`, violating the claimed
unconditional non-negativity; the code applies no clamp. -/
theorem claim_C9_counterexample :
    DurInv cexState.records ∧ ¬ DurInv ((step cexDist (Op.checkOutFail 0) cexState).records) := by
  refine ⟨by decide, ?_⟩
  intro hD
  have hrecs : (step cexDist (Op.checkOutFail 0) cexState).records
      = [checkOutFailRecord cexOpen 0] := rfl
  have hmem : checkOutFailRecord cexOpen 0 ∈ (step cexDist (Op.checkOutFail 0) cexState).records := by
    rw [hrecs]
    exact List.mem_singleton_self _
  have h := hD _ hmem rfl
  have hdur : (checkOutFailRecord cexOpen 0).durationMinutes
      = some (jsRound (((0 - cexOpen.checkInTime : ℤ) : ℚ) / 60000)) := rfl
  have hval : jsRound (((0 - cexOpen.checkInTime : ℤ) : ℚ) / 60000) = -10 := by
    norm_num [jsRound, cexOpen, Rat.floor_def']
  rw [durOk, hdur, hval] at h
  simp at h

/-- Witness for the amended C9 theorem: same state, forward clock (checkout at
t = 700000 after check-in at t = 600000) — the invariant is preserved. -/
theorem claim_C9_witness :
    clockOk cexState (Op.checkOutFail 700000) = true ∧
    DurInv ((step cexDist (Op.checkOutFail 700000) cexState).records) :=
  ⟨by decide,
    claim_C9_duration_invariant cexDist (Op.checkOutFail 700000) cexState (by decide) (by decide)⟩

end A

namespace A

/-- C1: for every staff user, after any sequence of successful
`validateAndLoginUser` and check-in calls on a single device (one persisted
device-id store), each user records at most one device identifier (the
`boundDeviceId` field holds at most one value), and no two distinct staff
users ever hold the same non-null `boundDeviceId`; the run quantifies over
every operation prefix, so the invariant holds after every `authenticate`
call. -/
theorem claim_C1_device_binding (calcDist : Coords → Coords → ℚ) (s0 : AppState) (ops : List Op)
    (hUU : UsersUnique s0.users) (hsess : s0.session = none) (hshift : s0.activeShift = none)
    (hND : (s0.records.map (fun r => r.id)).Nodup)
    (hOC : ∀ uid, openCount uid s0.records ≤ 1)
    (hok : okTrace calcDist s0 ops = true) :
    (∀ u ∈ (run calcDist s0 ops).users, ∀ d1 d2,
        u.boundDeviceId = some d1 → u.boundDeviceId = some d2 → d1 = d2) ∧
    (∀ u1 ∈ (run calcDist s0 ops).users, ∀ u2 ∈ (run calcDist s0 ops).users,
        u1.role = UserRole.STAFF → u2.role = UserRole.STAFF → u1.id ≠ u2.id →
        u1.boundDeviceId.isSome = true → u1.boundDeviceId ≠ u2.boundDeviceId) := by
  have hInv0 : Inv s0 := by
    refine ⟨hUU, ?_, hND, hOC, ?_, ?_⟩
    · intro u hu
      rw [hsess] at hu
      cases hu
    · intro r hr
      rw [hshift] at hr
      cases hr
    · intro _ u hu
      rw [hsess] at hu
      cases hu
  obtain ⟨hUU', _, _, _, _, _⟩ := inv_run calcDist s0 ops hInv0 hok
  constructor
  · intro u _ d1 d2 h1 h2
    rw [h1] at h2
    exact Option.some.inj h2
  · intro u1 h1 u2 h2 _ _ hne hsome heq
    exact hUU' u1 h1 u2 h2 hne hsome heq

/-- C2: in every reachable state, every user has at most one open attendance
record; and when the session user has an open record — found via the
`getActiveRecord` open-record lookup — any further check-in attempt is a
no-op (the dashboard renders the check-in action only while `activeShift` is
unset), leaving exactly one open record for that user. -/
theorem claim_C2_single_open_record (calcDist : Coords → Coords → ℚ) (s0 : AppState)
    (ops : List Op)
    (hUU : UsersUnique s0.users) (hsess : s0.session = none) (hshift : s0.activeShift = none)
    (hND : (s0.records.map (fun r => r.id)).Nodup)
    (hOC : ∀ uid, openCount uid s0.records ≤ 1)
    (hok : okTrace calcDist s0 ops = true) :
    (∀ uid, openCount uid (run calcDist s0 ops).records ≤ 1) ∧
    (∀ u rec, (run calcDist s0 ops).session = some u →
      getActiveRecord u.id (run calcDist s0 ops).records = some rec →
      openCount u.id (run calcDist s0 ops).records = 1 ∧
      (∀ hid userCoords now newId fresh,
        step calcDist (Op.checkIn hid userCoords now newId fresh) (run calcDist s0 ops) =
          run calcDist s0 ops)) := by
  have hInv0 : Inv s0 := by
    refine ⟨hUU, ?_, hND, hOC, ?_, ?_⟩
    · intro u hu
      rw [hsess] at hu
      cases hu
    · intro r hr
      rw [hshift] at hr
      cases hr
    · intro _ u hu
      rw [hsess] at hu
      cases hu
  obtain ⟨hUU', hSO', hND', hOC', hSS', hSN'⟩ := inv_run calcDist s0 ops hInv0 hok
  refine ⟨hOC', ?_⟩
  intro u rec hsess' hfind
  have hmem := List.mem_of_find?_eq_some hfind
  have hp := List.find?_some hfind
  have hone : openCount u.id (run calcDist s0 ops).records = 1 :=
    Nat.le_antisymm (hOC' u.id) (one_le_openCount hmem hp)
  refine ⟨hone, ?_⟩
  intro hid userCoords now newId fresh
  by_cases hadm : u.role = UserRole.ADMIN
  · simp [step, hsess', hadm]
  · cases hshift' : (run calcDist s0 ops).activeShift with
    | none =>
      have h0 := hSN' hshift' u hsess' hadm
      rw [hone] at h0
      cases h0
    | some r0 => simp [step, hsess', hadm, hshift']

/-- C3: if some stored user `u1` carries `boundDeviceId = D` and the current
device is `D`, then `validateAndLoginUser` for any other staff user `u2`
(resolved by username) fails with the device-owned-by-other error, and the
stored user list and device-id store are unchanged by the failed attempt. -/
theorem claim_C3_device_owned_by_other (users : List User) (D fresh username : String)
    (u1 u2 : User)
    (hfind : users.find? (fun u => u.username == username) = some u2)
    (hrole : u2.role = UserRole.STAFF)
    (hmem : u1 ∈ users) (hbound : u1.boundDeviceId = some D) (hne : u1.id ≠ u2.id) :
    ∃ ownerName, validateAndLoginUser users (some D) fresh username =
      (LoginResult.deviceOwnedByOther ownerName, users, some D) := by
  have hadm : ¬ u2.role = UserRole.ADMIN := by
    rw [hrole]
    intro h
    cases h
  have hex : ∃ u ∈ users, (u.boundDeviceId == some D && u.id != u2.id) = true := by
    refine ⟨u1, hmem, ?_⟩
    simp [hbound, hne]
  obtain ⟨owner, hown⟩ := Option.isSome_iff_exists.mp (List.find?_isSome.mpr hex)
  refine ⟨owner.name, ?_⟩
  simp [validateAndLoginUser, hfind, hadm, getOrCreateDeviceId, hown]

/-- C10: when the target account of `validateAndLoginUser` has the `ADMIN`
role, the call returns success immediately with that account, the stored user
list is unchanged, and the device-id store is untouched — in particular no
device id is created when none is persisted, and no binding is written for
any account. -/
theorem claim_C10_admin_bypass_frame (users : List User) (dStore : Option String)
    (fresh username : String) (target : User)
    (hfind : users.find? (fun u => u.username == username) = some target)
    (hrole : target.role = UserRole.ADMIN) :
    validateAndLoginUser users dStore fresh username = (LoginResult.success target, users, dStore) := by
  simp [validateAndLoginUser, hfind, hrole]

end A

namespace A

/-- C4: for every hospital and check-in position, the record produced by the
check-in handler is flagged exactly when the computed distance exceeds
`hospital.radius + 15` (the 15-metre GPS-drift buffer), and its
`distanceFromCenter` equals that computed distance; quantified over every
distance function, hence in particular the haversine `calculateDistance`. -/
theorem claim_C4_geofence_flag (calcDist : Coords → Coords → ℚ) (newId : String) (u : User)
    (hospital : Hospital) (userCoords : Coords) (now : ℤ) (deviceId : String) :
    ((checkInRecord calcDist newId u hospital userCoords now deviceId).flagged = true ↔
      calcDist userCoords hospital.coords > hospital.radius + 15) ∧
    (checkInRecord calcDist newId u hospital userCoords now deviceId).distanceFromCenter =
      calcDist userCoords hospital.coords := by
  constructor
  · simp [checkInRecord, not_le]
  · rfl

/-- C5: the GPS-failure checkout path always closes the active record —
`checkOutTime` is set to the current time and `durationMinutes` is computed
from `checkInTime` and now — while `checkOutCoords` stays unset, the store is
updated with the closed record and the shift cleared, and the caller is shown
a non-fatal warning (`MsgKind.warning`), never an error; a GPS failure during
check-in, by contrast, creates no record at all. -/
theorem claim_C5_checkout_gps_degrade (calcDist : Coords → Coords → ℚ) (s : AppState)
    (u : User) (r : AttendanceRecord) (now : ℤ)
    (hsess : s.session = some u) (hrole : u.role ≠ UserRole.ADMIN)
    (hshift : s.activeShift = some r) (hcoords : r.checkOutCoords = none) :
    (checkOutFailRecord r now).checkOutTime = some now ∧
    (checkOutFailRecord r now).checkOutCoords = none ∧
    (checkOutFailRecord r now).durationMinutes =
      some (jsRound (((now - r.checkInTime : ℤ) : ℚ) / 60000)) ∧
    step calcDist (Op.checkOutFail now) s =
      { s with records := updateAttendanceRecord (checkOutFailRecord r now) s.records,
               activeShift := none, statusMessage := some MsgKind.warning } ∧
    (∀ msg, (step calcDist (Op.checkInGpsFail msg) s).records = s.records) := by
  refine ⟨rfl, hcoords, rfl, ?_, ?_⟩
  · simp [step, hsess, hrole, hshift]
  · intro msg
    by_cases hadm : u.role = UserRole.ADMIN
    · exact absurd hadm hrole
    · simp [step, hsess, hadm, hshift]

end A

namespace A

theorem countP_singleton_le_one {α : Type} (p : α → Bool) (r : α) : List.countP p [r] ≤ 1 := by
  simp only [List.countP_cons, List.countP_nil]
  split <;> simp

/-- Admin seeded by `initMockData` in `storage.ts`. -/
def c1Admin : User := ⟨"admin-1", "Hospital Administrator", "admin", UserRole.ADMIN, none, none, none⟩

/-- Unbound staff user Alice. -/
def c1Alice : User := ⟨"u1", "Alice Staff", "alice", UserRole.STAFF, some "h1", none, none⟩

/-- Unbound staff user Bob. -/
def c1Bob : User := ⟨"u2", "Bob Staff", "bob", UserRole.STAFF, some "h1", none, none⟩

/-- Fresh single-device store for the C1 scenario. -/
def c1Init : AppState := ⟨[cexHospital], [c1Admin, c1Alice, c1Bob], [], none, none, none, none, ""⟩

/-- Alice logs in and works a shift; Bob then tries to log in on the same
device (rejected); the admin logs in (bypass). -/
def c1Ops : List Op :=
  [.auth "alice" "dev-1", .checkIn "h1" ⟨40, -75, none⟩ 1000 "rec-1" "dev-1",
   .checkOutFail 2000, .auth "bob" "dev-1", .auth "admin" "dev-1"]

/-- Witness: the C1 theorem applied to the concrete single-device scenario. -/
theorem claim_C1_witness :
    okTrace cexDist c1Init c1Ops = true ∧
    (∀ u1 ∈ (run cexDist c1Init c1Ops).users, ∀ u2 ∈ (run cexDist c1Init c1Ops).users,
      u1.role = UserRole.STAFF → u2.role = UserRole.STAFF → u1.id ≠ u2.id →
      u1.boundDeviceId.isSome = true → u1.boundDeviceId ≠ u2.boundDeviceId) :=
  ⟨by decide,
    (claim_C1_device_binding cexDist c1Init c1Ops (by decide) rfl rfl (by decide)
      (fun _ => Nat.zero_le 1) (by decide)).2⟩

/-- Store holding Alice (unbound) and her open record, before she logs in. -/
def c2Init : AppState := ⟨[cexHospital], [c1Alice], [cexOpen], none, none, none, none, ""⟩

/-- Alice logs in, which binds the device and resumes the open shift. -/
def c2Ops : List Op := [.auth "alice" "dev-1"]

/-- Witness: after Alice resumes her open shift, a second check-in attempt is
a no-op and exactly one open record remains. -/
theorem claim_C2_witness :
    (run cexDist c2Init c2Ops).session = some cexBound ∧
    getActiveRecord cexBound.id (run cexDist c2Init c2Ops).records = some cexOpen ∧
    openCount cexBound.id (run cexDist c2Init c2Ops).records = 1 ∧
    step cexDist (Op.checkIn "h1" ⟨40, -75, none⟩ 9000 "rec-2" "dev-1") (run cexDist c2Init c2Ops)
      = run cexDist c2Init c2Ops := by
  have h := (claim_C2_single_open_record cexDist c2Init c2Ops (by decide) rfl rfl (by decide)
      (fun uid => countP_singleton_le_one (isOpenFor uid) cexOpen) (by decide)).2
    cexBound cexOpen rfl rfl
  exact ⟨rfl, rfl, h.1, h.2 "h1" ⟨40, -75, none⟩ 9000 "rec-2" "dev-1"⟩

/-- Staff user Bob, unbound, target of the C3 login attempt. -/
def c3Bob : User := ⟨"u2", "Bob Staff", "bob", UserRole.STAFF, some "h1", none, none⟩

/-- Witness: on a device bound to Alice, Bob's login fails with the
device-owned-by-other error and the store is unchanged. -/
theorem claim_C3_witness :
    ∃ ownerName, validateAndLoginUser [cexBound, c3Bob] (some "dev-1") "uuid-9" "bob" =
      (LoginResult.deviceOwnedByOther ownerName, [cexBound, c3Bob], some "dev-1") :=
  claim_C3_device_owned_by_other [cexBound, c3Bob] "dev-1" "uuid-9" "bob" cexBound c3Bob
    rfl rfl (List.mem_cons_self _ _) rfl (by decide)

/-- Witness: the C5 theorem applied to the concrete mid-shift state with a
GPS failure at checkout time t = 700000. -/
theorem claim_C5_witness :
    (checkOutFailRecord cexOpen 700000).checkOutTime = some 700000 ∧
    (checkOutFailRecord cexOpen 700000).checkOutCoords = none ∧
    (checkOutFailRecord cexOpen 700000).durationMinutes =
      some (jsRound (((700000 - cexOpen.checkInTime : ℤ) : ℚ) / 60000)) ∧
    step cexDist (Op.checkOutFail 700000) cexState =
      { cexState with
          records := updateAttendanceRecord (checkOutFailRecord cexOpen 700000) cexState.records,
          activeShift := none, statusMessage := some MsgKind.warning } ∧
    (∀ msg, (step cexDist (Op.checkInGpsFail msg) cexState).records = cexState.records) :=
  claim_C5_checkout_gps_degrade cexDist cexState cexBound cexOpen 700000 rfl (by decide) rfl rfl

/-- Witness: admin login with an empty device-id store succeeds and leaves
both the users and the device-id store untouched. -/
theorem claim_C10_witness :
    validateAndLoginUser [c1Admin, c1Alice] none "uuid-7" "admin" =
      (LoginResult.success c1Admin, [c1Admin, c1Alice], none) :=
  claim_C10_admin_bypass_frame [c1Admin, c1Alice] none "uuid-7" "admin" c1Admin rfl rfl

end A

namespace VB

/-- `User` from the variant-B `src/types.ts`, plus the `profilePicture` field
written by the profile-upload path and mapped by the sync code
(`profile_picture`). -/
structure User where
  id : String
  name : String
  role : UserRole
  hospitalId : String
  pin : String
  boundDeviceId : Option String
  profilePicture : Option String
deriving DecidableEq, Repr

/-- A row of the remote `users` table, with the column names used by
`mapUserToDb` / the pull mapping in `syncFromSupabase`
(`src/unnamed/part_003`). -/
structure DbUser where
  id : String
  name : String
  role : UserRole
  hospital_id : String
  pin : String
  bound_device_id : Option String
  profile_picture : Option String
deriving DecidableEq, Repr

/-- `mapUserToDb` (`part_003` lines 105-113). -/
def mapUserToDb (u : User) : DbUser :=
  ⟨u.id, u.name, u.role, u.hospitalId, u.pin, u.boundDeviceId, u.profilePicture⟩

/-- The inline user mapping of the pull branch of `syncFromSupabase`
(`part_003` lines 52-60). -/
def mapUserFromDb (u : DbUser) : User :=
  ⟨u.id, u.name, u.role, u.hospital_id, u.pin, u.bound_device_id, u.profile_picture⟩

/-- A row of the remote `attendance_records` table, with the column names
used by `mapAttendanceToDb` / the pull mapping in `syncFromSupabase`. -/
structure DbAttendance where
  id : String
  user_id : String
  user_name : String
  hospital_id : String
  hospital_name : String
  check_in_time : ℤ
  check_out_time : Option ℤ
  check_in_coords : Coords
  check_out_coords : Option Coords
  flagged : Bool
  distance_from_center : ℚ
  duration_minutes : Option ℤ
  check_in_device_id : Option String
  check_out_device_id : Option String
  anomaly : Option Anomaly
deriving DecidableEq, Repr

/-- `mapAttendanceToDb` (`part_003` lines 115-131). -/
def mapAttendanceToDb (r : AttendanceRecord) : DbAttendance :=
  ⟨r.id, r.userId, r.userName, r.hospitalId, r.hospitalName, r.checkInTime, r.checkOutTime,
    r.checkInCoords, r.checkOutCoords, r.flagged, r.distanceFromCenter, r.durationMinutes,
    r.checkInDeviceId, r.checkOutDeviceId, r.anomaly⟩

/-- The inline attendance mapping of the pull branch of `syncFromSupabase`
(`part_003` lines 76-92). -/
def mapAttendanceFromDb (r : DbAttendance) : AttendanceRecord :=
  ⟨r.id, r.user_id, r.user_name, r.hospital_id, r.hospital_name, r.check_in_time,
    r.check_out_time, r.check_in_coords, r.check_out_coords, r.flagged,
    r.distance_from_center, r.duration_minutes, r.check_in_device_id, r.check_out_device_id,
    r.anomaly⟩

theorem mapUserFromDb_toDb (u : User) : mapUserFromDb (mapUserToDb u) = u := rfl

theorem mapAttendanceFromDb_toDb (r : AttendanceRecord) :
    mapAttendanceFromDb (mapAttendanceToDb r) = r := rfl

end VB

theorem upsertBy_append {β κ : Type} [BEq κ] (key : β → κ) (x : β) :
    ∀ acc : List β, (∀ y ∈ acc, (key y == key x) = false) → upsertBy key x acc = acc ++ [x] := by
  intro acc
  induction acc with
  | nil => intro _; rfl
  | cons y ys ih =>
    intro h
    simp only [upsertBy, h y (List.mem_cons_self y ys), Bool.false_eq_true, if_false,
      List.cons_append, List.cons.injEq, true_and]
    exact ih (fun z hz => h z (List.mem_cons_of_mem _ hz))

theorem foldl_upsertBy_of_nodup {β κ : Type} [BEq κ] [LawfulBEq κ] (key : β → κ) :
    ∀ (xs acc : List β), ((acc ++ xs).map key).Nodup →
      xs.foldl (fun a x => upsertBy key x a) acc = acc ++ xs := by
  intro xs
  induction xs with
  | nil =>
    intro acc _
    simp
  | cons x xs ih =>
    intro acc hnd
    simp only [List.foldl_cons]
    have hx : ∀ y ∈ acc, (key y == key x) = false := by
      intro y hy
      rw [beq_eq_false_iff_ne]
      intro hcontra
      rw [List.map_append, List.nodup_append] at hnd
      exact hnd.2.2 (List.mem_map_of_mem key hy)
        (by
          rw [List.map_cons]
          exact hcontra ▸ List.mem_cons_self _ _)
    rw [upsertBy_append key x acc hx]
    have heq : (acc ++ [x]) ++ xs = acc ++ x :: xs := by
      simp
    have := ih (acc ++ [x]) (by rw [heq]; exact hnd)
    rw [this, heq]

namespace P3

/-- The remote Supabase store: three tables reachable with `select('*')` and
`upsert` (`src/unnamed/part_003`). Rows are pure data here; the fetch/upsert
error paths of the source return early without touching local state and are
not failure-injected in this model. -/
structure Remote where
  hospitals : List Hospital
  users : List VB.DbUser
  attendance_records : List VB.DbAttendance
deriving DecidableEq, Repr

/-- The local persisted collections of the variant-B app. -/
structure LocalDB where
  hospitals : List Hospital
  users : List VB.User
  attendance_records : List AttendanceRecord
deriving DecidableEq, Repr

/-- Result of `syncFromSupabase` together with the updated stores. -/
structure SyncOut where
  remote : Remote
  localDB : LocalDB
  success : Bool
  message : String
deriving DecidableEq, Repr

/-- One collection pass of `syncFromSupabase`: if the remote collection is
empty and the local one is not, push every local row to the remote store
(`upsert` by `id`), leaving local untouched; otherwise the remote collection
is authoritative and overwrites the local one through the pull mapping. -/
def syncCollection {α β : Type} (toDb : α → β) (fromDb : β → α) (keyB : β → String)
    (rc : List β) (lc : List α) : List β × List α :=
  if rc.isEmpty && !lc.isEmpty then
    (lc.foldl (fun acc x => upsertBy keyB (toDb x) acc) rc, lc)
  else
    (rc, rc.map fromDb)

/-- `syncFromSupabase` (`part_003` lines 11-102): offline is a no-op failure,
an unconfigured cloud a no-op success; otherwise the three collections are
synchronised independently — hospitals are pushed and pulled raw, users and
attendance records through the explicit column mappings. -/
def syncFromSupabase (online configured : Bool) (r : Remote) (l : LocalDB) : SyncOut :=
  if !online then ⟨r, l, false, "Offline"⟩
  else if !configured then ⟨r, l, true, "Local Mode Only"⟩
  else
    let ph := syncCollection (fun h => h) (fun h => h) (fun h => h.id) r.hospitals l.hospitals
    let pu := syncCollection VB.mapUserToDb VB.mapUserFromDb (fun u => u.id) r.users l.users
    let pa := syncCollection VB.mapAttendanceToDb VB.mapAttendanceFromDb (fun a => a.id)
      r.attendance_records l.attendance_records
    ⟨⟨ph.1, pu.1, pa.1⟩, ⟨ph.2, pu.2, pa.2⟩, true, "Data synced"⟩

/-- `importAttendanceData` (`part_003` lines 200-216), at the level of parsed
JSON: a failed decode (`none`) or a decoded value that is not an array yields
`{success: false, count: 0}` and leaves the store untouched; an array is
applied record by record via `saveAttendanceRecord`, which upserts by the
`id` field. -/
def importAttendanceData (decoded : Option JVal) (store : List JVal) :
    (Bool × ℕ) × List JVal :=
  match decoded with
  | none => ((false, 0), store)
  | some (.jarr xs) =>
      ((true, xs.length), xs.foldl (fun acc rec => upsertBy (fun v => jget v "id") rec acc) store)
  | some _ => ((false, 0), store)

theorem syncCollection_stable {α β : Type} (toDb : α → β) (fromDb : β → α) (keyB : β → String)
    (hrt : ∀ x, fromDb (toDb x) = x)
    (rc : List β) (lc : List α) (hnd : ((lc.map toDb).map keyB).Nodup) :
    (syncCollection toDb fromDb keyB
        (syncCollection toDb fromDb keyB rc lc).1
        (syncCollection toDb fromDb keyB rc lc).2).2
      = (syncCollection toDb fromDb keyB rc lc).2 := by
  by_cases hc : (rc.isEmpty && !lc.isEmpty) = true
  · obtain ⟨hrc, hlc⟩ := Bool.and_eq_true_iff.mp hc
    have hrcnil : rc = [] := List.isEmpty_iff.mp hrc
    have hlcne : lc ≠ [] := by
      intro h
      rw [h] at hlc
      simp at hlc
    have hfm := List.foldl_map toDb (fun (a : List β) (y : β) => upsertBy keyB y a) lc ([] : List β)
    have hfold : lc.foldl (fun acc x => upsertBy keyB (toDb x) acc) [] = lc.map toDb := by
      rw [← hfm]
      exact foldl_upsertBy_of_nodup keyB (lc.map toDb) [] (by simpa using hnd)
    have hmapne : (lc.map toDb).isEmpty = false := by
      cases lc with
      | nil => exact absurd rfl hlcne
      | cons a as => rfl
    simp only [syncCollection]
    rw [if_pos hc, hrcnil, hfold]
    have hcond : ((lc.map toDb).isEmpty && !lc.isEmpty) = false := by
      rw [hmapne]
      rfl
    rw [hcond]
    simp only [Bool.false_eq_true, if_false, List.map_map]
    have hcomp : (fromDb ∘ toDb) = fun x => x := by
      funext x
      exact hrt x
    rw [hcomp, List.map_id']
  · simp only [syncCollection]
    rw [if_neg hc]
    have hfalse : (rc.isEmpty && !(rc.map fromDb).isEmpty) = false := by
      cases rc <;> simp
    rw [hfalse]
    simp

end P3

namespace P3

/-- C7: calling `syncFromSupabase` twice in a row against a fixed remote
store, online and with the cloud configured and no intervening local writes,
leaves the local Hospitals, StaffUsers and AttendanceRecords collections
unchanged after the second call — the second call is a no-op on local state.
Record ids are assumed unique per collection, as the data model requires. -/
theorem claim_C7_sync_idempotent (r : Remote) (l : LocalDB)
    (hH : (l.hospitals.map (fun h => h.id)).Nodup)
    (hU : (l.users.map (fun u => u.id)).Nodup)
    (hA : (l.attendance_records.map (fun a => a.id)).Nodup) :
    (syncFromSupabase true true
        (syncFromSupabase true true r l).remote
        (syncFromSupabase true true r l).localDB).localDB
      = (syncFromSupabase true true r l).localDB := by
  have hH' := syncCollection_stable (fun h => h) (fun h => h) (fun h : Hospital => h.id)
    (fun _ => rfl) r.hospitals l.hospitals (by simpa using hH)
  have hU' := syncCollection_stable VB.mapUserToDb VB.mapUserFromDb (fun u : VB.DbUser => u.id)
    VB.mapUserFromDb_toDb r.users l.users
    (by simpa [List.map_map, Function.comp, VB.mapUserToDb] using hU)
  have hA' := syncCollection_stable VB.mapAttendanceToDb VB.mapAttendanceFromDb
    (fun a : VB.DbAttendance => a.id) VB.mapAttendanceFromDb_toDb
    r.attendance_records l.attendance_records
    (by simpa [List.map_map, Function.comp, VB.mapAttendanceToDb] using hA)
  simp only [syncFromSupabase, Bool.not_true, Bool.false_eq_true, if_false]
  simp only [LocalDB.mk.injEq]
  exact ⟨hH', hU', hA'⟩

end P3

namespace P4

/-- The config-transfer payload built by `generateHospitalConfigLink`
(`src/unnamed/part_004`): `{hospital, staff, timestamp}`. The
base64-of-JSON encoding placed in the link's `config` query parameter is a
reversible serialization and is modelled as the identity on this typed
payload; a decode/validation failure on import is modelled as `none`. -/
structure ConfigPayload where
  hospital : Hospital
  staff : List VB.User
  timestamp : ℤ
deriving DecidableEq, Repr

/-- `generateHospitalConfigLink` (`part_004` lines 19-36): `none` when the
hospital is not found (the source returns the empty string); otherwise the
payload bundling the hospital and its staff (`u.hospitalId === hospitalId`). -/
def generateHospitalConfigLink (hospitals : List Hospital) (users : List VB.User)
    (hospitalId : String) (timestamp : ℤ) : Option ConfigPayload :=
  match hospitals.find? (fun h => h.id == hospitalId) with
  | none => none
  | some hospital =>
      some ⟨hospital, users.filter (fun u => u.hospitalId == hospitalId), timestamp⟩

/-- `importHospitalConfig` (`part_004` lines 38-72): a decode failure is
caught and makes no change; a decoded payload always passes the
`!payload.hospital || !payload.staff` truthiness check (both fields are
present on the typed payload), after which the hospital is saved by id
(update-if-exists else push) and each staff member merged by id. -/
def importHospitalConfig (payload : Option ConfigPayload) (hospitals : List Hospital)
    (users : List VB.User) : Bool × List Hospital × List VB.User :=
  match payload with
  | none => (false, hospitals, users)
  | some p =>
      let hospitals' := upsertBy (fun h => h.id) p.hospital hospitals
      let users' := p.staff.foldl (fun acc u => upsertBy (fun x => x.id) u acc) users
      (true, hospitals', users')

/-- The per-record merge of `importAttendanceData` (`part_004` lines 90-105):
a new id is pushed; an existing record is replaced only when it lacks a
truthy `checkOutTime` and the incoming one has it. Returns the updated list
and whether a change was counted. -/
def mergeAttendance (incoming : JVal) : List JVal → List JVal × Bool
  | [] => ([incoming], true)
  | c :: cs =>
      if jget c "id" == jget incoming "id" then
        if !(jTruthy (jget c "checkOutTime")) && jTruthy (jget incoming "checkOutTime") then
          (incoming :: cs, true)
        else
          (c :: cs, false)
      else
        let p := mergeAttendance incoming cs
        (c :: p.1, p.2)

/-- `importAttendanceData` (`part_004` lines 82-113), at the level of parsed
JSON: a failed decode (`none`) or a non-array value yields
`{success: false, count: 0}` with the store untouched; an array is merged
record by record. -/
def importAttendanceData (decoded : Option JVal) (store : List JVal) :
    (Bool × ℕ) × List JVal :=
  match decoded with
  | none => ((false, 0), store)
  | some (.jarr xs) =>
      let p := xs.foldl
        (fun (acc : List JVal × ℕ) incoming =>
          let m := mergeAttendance incoming acc.1
          (m.1, if m.2 then acc.2 + 1 else acc.2))
        (store, 0)
      ((true, p.2), p.1)
  | some _ => ((false, 0), store)

end P4

/-- C6: for every input payload whose decoding fails (`none`) or whose
decoded value is not an array — for example one decoding to the object
`{"foo": 1}` — `importAttendanceData` fails with the corrupt-payload result
`{success: false, count: 0}` (zero records imported) and leaves the stored
attendance collection unchanged; proved for both variants of the function
(`src/unnamed/part_003` and `src/unnamed/part_004`). -/
theorem claim_C6_corrupt_payload (store3 store4 : List JVal) (d : Option JVal)
    (h : ∀ xs, d ≠ some (JVal.jarr xs)) :
    P3.importAttendanceData d store3 = ((false, 0), store3) ∧
    P4.importAttendanceData d store4 = ((false, 0), store4) := by
  cases d with
  | none => exact ⟨rfl, rfl⟩
  | some v =>
    cases v with
    | jarr xs => exact absurd rfl (h xs)
    | jnull => exact ⟨rfl, rfl⟩
    | jbool b => exact ⟨rfl, rfl⟩
    | jnum q => exact ⟨rfl, rfl⟩
    | jstr s => exact ⟨rfl, rfl⟩
    | jobj fs => exact ⟨rfl, rfl⟩

/-- A record-shaped stored JSON object, to show the store is untouched. -/
def c6Stored : JVal := JVal.jobj [("id", JVal.jstr "r1"), ("userId", JVal.jstr "u1")]

/-- The payload of the C6 scenario: decodes to `{"foo": 1}`, not an array. -/
def c6Payload : Option JVal := some (JVal.jobj [("foo", JVal.jnum 1)])

/-- Witness: C6 applied to the `{"foo": 1}` payload over a one-record store. -/
theorem claim_C6_witness :
    P3.importAttendanceData c6Payload [c6Stored] = ((false, 0), [c6Stored]) ∧
    P4.importAttendanceData c6Payload [c6Stored] = ((false, 0), [c6Stored]) :=
  claim_C6_corrupt_payload [c6Stored] [c6Stored] c6Payload
    (by
      intro xs hx
      simp [c6Payload] at hx)

/-- C8: for every hospital id whose `Hospital` exists, importing the payload
produced by `generateHospitalConfigLink` into a fresh (empty) store
reproduces exactly that hospital and exactly the staff users of that
hospital, by id and by every field value. Staff ids are assumed unique, as
the data model requires. -/
theorem claim_C8_config_roundtrip (hospitals : List Hospital) (users : List VB.User)
    (hid : String) (ts : ℤ) (H : Hospital)
    (hfind : hospitals.find? (fun h => h.id == hid) = some H)
    (hnd : ((users.filter (fun u => u.hospitalId == hid)).map (fun u => u.id)).Nodup) :
    P4.importHospitalConfig (P4.generateHospitalConfigLink hospitals users hid ts) [] [] =
      (true, [H], users.filter (fun u => u.hospitalId == hid)) := by
  have hfold := foldl_upsertBy_of_nodup (fun x : VB.User => x.id)
    (users.filter (fun u => u.hospitalId == hid)) [] (by simpa using hnd)
  simp only [P4.generateHospitalConfigLink, hfind, P4.importHospitalConfig]
  rw [hfold]
  simp [upsertBy]

/-- Hospital for the C7/C8 concrete scenarios. -/
def c7Hospital : Hospital :=
  ⟨"h1", "General Hospital", "REG-1", "gh", "pw", none, ⟨40, -75, none⟩, 15⟩

/-- A bound staff user in the variant-B store. -/
def c7User : VB.User := ⟨"u1", "Alice", UserRole.STAFF, "h1", "1111", some "dev-1", none⟩

/-- A closed attendance record in the variant-B store. -/
def c7Record : AttendanceRecord :=
  ⟨"r1", "u1", "Alice", "h1", "General Hospital", 600000, some 660000,
    ⟨40, -75, none⟩, none, false, 0, some 1, some "dev-1", none, none⟩

/-- Non-empty local store for the C7 scenario. -/
def c7Local : P3.LocalDB := ⟨[c7Hospital], [c7User], [c7Record]⟩

/-- Freshly provisioned (empty) remote store: the first call exercises the
bootstrap push branch of every collection. -/
def c7Remote : P3.Remote := ⟨[], [], []⟩

/-- Witness: C7 applied to a non-empty local store against an initially empty
remote — the first call seeds the remote, the second leaves local unchanged. -/
theorem claim_C7_witness :
    (c7Local.hospitals.map (fun h => h.id)).Nodup ∧
    (c7Local.users.map (fun u => u.id)).Nodup ∧
    (c7Local.attendance_records.map (fun a => a.id)).Nodup ∧
    (P3.syncFromSupabase true true
        (P3.syncFromSupabase true true c7Remote c7Local).remote
        (P3.syncFromSupabase true true c7Remote c7Local).localDB).localDB
      = (P3.syncFromSupabase true true c7Remote c7Local).localDB :=
  ⟨by decide, by decide, by decide,
    P3.claim_C7_sync_idempotent c7Remote c7Local (by decide) (by decide) (by decide)⟩

/-- A second hospital, not exported. -/
def c8Other : Hospital :=
  ⟨"h2", "Clinic", "REG-2", "cl", "pw2", none, ⟨41, -74, none⟩, 15⟩

/-- Staff of the exported hospital. -/
def c8Staff1 : VB.User := ⟨"u1", "Alice", UserRole.STAFF, "h1", "1111", none, none⟩

/-- Second staff member of the exported hospital, device-bound. -/
def c8Staff2 : VB.User := ⟨"u2", "Bob", UserRole.STAFF, "h1", "2222", some "dev-9", none⟩

/-- Staff member of the other hospital, not part of the payload. -/
def c8Outsider : VB.User := ⟨"u3", "Carol", UserRole.STAFF, "h2", "3333", none, none⟩

/-- Witness: C8 applied to a two-hospital store — the fresh store receives
exactly the exported hospital and its two staff members. -/
theorem claim_C8_witness :
    P4.importHospitalConfig
        (P4.generateHospitalConfigLink [c7Hospital, c8Other] [c8Staff1, c8Outsider, c8Staff2]
          "h1" 12345) [] []
      = (true, [c7Hospital], [c8Staff1, c8Staff2]) :=
  claim_C8_config_roundtrip [c7Hospital, c8Other] [c8Staff1, c8Outsider, c8Staff2] "h1" 12345
    c7Hospital rfl (by decide)
